import Mathlib

/-!
Shallow embedding of the Strautomator FIT parser core
(src/fitparser/index.ts: FitParser.parse and FitParser.getMatchingActivity).

JS numbers are modelled as exact rationals; NaN (which can arise from summing
an all-undefined column) is modelled as a missing value inside a further
Option layer where it matters.  In-place mutation of the caller-supplied
summary object is modelled by explicit state passing: parse takes the summary
and returns the (error-or-ok) outcome together with the updated summary.
-/

/-- JS Math.round on an exact rational: floor of x + 1/2 (ties toward plus infinity). -/
def jsRound (q : ℚ) : ℤ := ⌊q + 1 / 2⌋

/-- JS Number.toFixed 1 followed by parseFloat, on an exact rational:
round to one decimal place, ties away from zero for positives (ECMA picks the
larger candidate on ties, which for exact rationals is floor of 10x + 1/2, over 10). -/
def toFixed1 (q : ℚ) : ℚ := (jsRound (10 * q) : ℚ) / 10

/-- lodash sumBy over a column of optional numbers: undefined entries are
skipped; when every entry is undefined the sum is undefined (NaN downstream),
modelled as none.  The code only calls this on a non-empty sessions array. -/
def jsSumBy (l : List (Option ℚ)) : Option ℚ :=
  let vs := l.filterMap id
  if vs.isEmpty then none else some vs.sum

/-- JS truthiness of an optional number: absent and 0 are falsy. -/
def truthyQ : Option ℚ → Bool
  | some q => decide (q ≠ 0)
  | none => false

/-- JS truthiness of an optional string: absent and the empty string are falsy. -/
def truthyS : Option String → Bool
  | some s => decide (s ≠ "")
  | none => false

/-- JS truthiness of an optional natural number: absent and 0 are falsy. -/
def truthyN : Option Nat → Bool
  | some n => decide (n ≠ 0)
  | none => false

/-- One step of the per-session fields merge (src line 244):
assign the incoming value only when the current field value is falsy and the
incoming value is neither null nor undefined. -/
def mergeVal (cur v : Option ℚ) : Option ℚ :=
  if truthyQ cur then cur
  else match v with
    | some x => some x
    | none => cur

/-- Decoded left_right_balance object.  The record decoder (binary.ts) is not
under src; the shape used by parse is balance.right (right-power based flag)
and balance.value (raw balance value). -/
structure Balance where
  right : Bool
  value : ℚ
deriving DecidableEq

/-- Value stored in the primaryBenefit summary field: first a numeric code
taken from sessions, possibly replaced by a friendly string at the end of parse. -/
inductive PBVal where
  | num (q : ℚ)
  | str (s : String)
deriving DecidableEq

/-- Value stored in the pedalBalance summary field: first the raw decoded
balance object taken from sessions, replaced by a formatted string (or removed)
at the end of parse. -/
inductive PedalBalanceVal where
  | raw (b : Balance)
  | str (s : String)
deriving DecidableEq

/-- JS truthiness of an optional primaryBenefit value: objects do not occur,
a numeric 0 and the empty string are falsy. -/
def truthyPB : Option PBVal → Bool
  | some (.num q) => decide (q ≠ 0)
  | some (.str s) => decide (s ≠ "")
  | none => false

/-- JS truthiness of an optional pedalBalance value: a raw balance object is
always truthy, the empty string is falsy. -/
def truthyBal : Option PedalBalanceVal → Bool
  | some (.raw _) => true
  | some (.str s) => decide (s ≠ "")
  | none => false

/-- One step of the per-session merge for the primaryBenefit field
(same assignment rule as mergeVal, the stored value is a numeric code). -/
def mergePB (cur : Option PBVal) (v : Option ℚ) : Option PBVal :=
  if truthyPB cur then cur
  else match v with
    | some q => some (.num q)
    | none => cur

/-- One step of the per-session merge for the pedalBalance field
(same assignment rule as mergeVal, the stored value is the raw balance object). -/
def mergeBal (cur : Option PedalBalanceVal) (v : Option Balance) : Option PedalBalanceVal :=
  if truthyBal cur then cur
  else match v with
    | some b => some (.raw b)
    | none => cur

/-- First present value of a column, in order. -/
def firstSome {α : Type} (l : List (Option α)) : Option α :=
  (l.filterMap id).head?

/-- Fields of a decoded session message used by FitParser.parse.
Absent fields (invalid-value sentinels removed by the decoder) are none. -/
structure Session where
  total_distance : Option ℚ := none
  total_elapsed_time : Option ℚ := none
  primary_benefit : Option ℚ := none
  intensity_factor : Option ℚ := none
  training_stress_score : Option ℚ := none
  training_load : Option ℚ := none
  total_training_effect : Option ℚ := none
  total_anaerobic_effect : Option ℚ := none
  avg_combined_pedal_smoothness : Option ℚ := none
  avg_left_pedal_smoothness : Option ℚ := none
  avg_right_pedal_smoothness : Option ℚ := none
  avg_left_torque_effectiveness : Option ℚ := none
  avg_right_torque_effectiveness : Option ℚ := none
  left_right_balance : Option Balance := none
deriving DecidableEq

/-- Fields of a decoded event message used by FitParser.parse.
Timestamps are JS Dates, modelled as milliseconds. -/
structure Event where
  event : Option String := none
  event_type : Option String := none
  timestamp : Option ℚ := none
deriving DecidableEq

/-- Fields of a decoded sport message used by FitParser.parse. -/
structure Sport where
  name : Option String := none
deriving DecidableEq

/-- Fields of a decoded workout message used by FitParser.parse
(reaches the aggregator through the default switch branch). -/
structure Workout where
  wkt_name : Option String := none
  notes : Option String := none
deriving DecidableEq

/-- Fields of a decoded device_info message used by FitParser.parse. -/
structure DeviceInfo where
  manufacturer : Option String := none
  product : Option Nat := none
  product_name : Option String := none
  device_type : Option String := none
  source_type : Option String := none
  device_index : Option Nat := none
  serial_number : Option Nat := none
  battery_status : Option String := none
deriving DecidableEq

/-- One decoded message as dispatched by the switch in the parse loop
(src lines 118 to 188).  Kinds whose payload never reaches the output summary
carry no payload here. -/
inductive Message where
  | lap
  | session (s : Session)
  | workoutStep
  | event (e : Event)
  | lengthMsg
  | fieldDescription
  | deviceInfo (d : DeviceInfo)
  | developerDataId
  | diveGas
  | coursePoint
  | sport (sp : Sport)
  | fileId
  | definition
  | monitoring
  | monitoringInfo
  | stressLevel
  | software
  | workout (w : Workout)
  | otherKind (name : String)
deriving DecidableEq

/-- The caller-supplied summary object (FitFileActivity).  The type
declaration (fitparser/types.ts) is not under src; the fields modelled here
are exactly the ones FitParser.parse reads or writes, plus pausedTime, which
the spec says is exposed on the summary (the code never writes it).
For distance and totalTime the inner Option models a possible NaN. -/
structure FitFileActivity where
  distance : Option (Option ℚ) := none
  totalTime : Option (Option ℤ) := none
  primaryBenefit : Option PBVal := none
  intensityFactor : Option ℚ := none
  tss : Option ℚ := none
  trainingLoad : Option ℚ := none
  aerobicTrainingEffect : Option ℚ := none
  anaerobicTrainingEffect : Option ℚ := none
  pedalSmoothness : Option ℚ := none
  pedalTorqueEffect : Option ℚ := none
  pedalBalance : Option PedalBalanceVal := none
  sportProfile : Option String := none
  workoutName : Option String := none
  workoutNotes : Option String := none
  devices : Option (List String) := none
  deviceBattery : Option (List (String × String)) := none
  pausedTime : Option ℚ := none
deriving DecidableEq

instance : Inhabited FitFileActivity := ⟨{}⟩

/-- Modelled from the spec: the Profile Registry manufacturer-to-product-name
lookup (FIT.types.product, fit.ts is not under src).  Maps a manufacturer name
and product code to a product name when known. -/
def Registry : Type := String → Nat → Option String

/-- Sessions bucket collected by the parse loop, in stream order. -/
def sessionsOf (msgs : List Message) : List Session :=
  msgs.filterMap fun m => match m with
    | .session s => some s
    | _ => none

/-- Sports bucket collected by the parse loop, in stream order. -/
def sportsOf (msgs : List Message) : List Sport :=
  msgs.filterMap fun m => match m with
    | .sport sp => some sp
    | _ => none

/-- Workout slot: the default switch branch stores the single most recent
message of an unrecognized kind under its kind name, so the last workout
message wins. -/
def workoutOf (msgs : List Message) : Option Workout :=
  msgs.foldl (fun acc m => match m with
    | .workout w => some w
    | _ => acc) none

/-- Product-name backfill done when a device_info message is pushed
(src lines 146 to 151): when product_name is falsy and manufacturer and
product are truthy, look the name up in the registry. -/
def backfillDevice (reg : Registry) (d : DeviceInfo) : DeviceInfo :=
  if ¬ truthyS d.product_name ∧ truthyS d.manufacturer ∧ truthyN d.product then
    match d.manufacturer, d.product with
    | some m, some p =>
      match reg m p with
      | some name => { d with product_name := some name }
      | none => d
    | _, _ => d
  else d

/-- Devices bucket collected by the parse loop (with backfill), in stream order. -/
def devicesOf (reg : Registry) (msgs : List Message) : List DeviceInfo :=
  msgs.filterMap fun m => match m with
    | .deviceInfo d => some (backfillDevice reg d)
    | _ => none

/-- One step of the timer pause accounting (src lines 128 to 135), acting on
the pair of the last stop timestamp and the paused-time accumulator.
A missing operand poisons the accumulator to NaN, modelled as none. -/
def timerStep (st : Option ℚ × Option ℚ) (m : Message) : Option ℚ × Option ℚ :=
  match m with
  | .event e =>
    if e.event = some "timer" then
      if e.event_type = some "stop_all" then (e.timestamp, st.2)
      else if e.event_type = some "start" then
        match st.1, e.timestamp, st.2 with
        | some last, some t, some p => (st.1, some (p + (t - last) / 1000))
        | some _, _, _ => (st.1, none)
        | none, _, _ => st
      else st
    else st
  | _ => st

/-- Paused-time accumulator after the parse loop: seconds of pause
accumulated from timer stop_all and start events. -/
def pausedTimeOf (msgs : List Message) : Option ℚ :=
  (msgs.foldl timerStep (none, some 0)).2

/-- Mean of the present values of an array-grouped field
(lodash pick, values, without null and undefined, mean). -/
def meanOpt (l : List (Option ℚ)) : Option ℚ :=
  let vs := l.filterMap id
  if vs.isEmpty then none else some (vs.sum / vs.length)

/-- Per-session extraction of the fixed derived fields (src lines 216 to 248):
for each target field, assign the session value only when the current summary
value is falsy and the session value is not nil.  Array-grouped fields take
the mean of their present sub-fields. -/
def extractFields (a : FitFileActivity) (s : Session) : FitFileActivity :=
  { a with
    primaryBenefit := mergePB a.primaryBenefit s.primary_benefit,
    intensityFactor := mergeVal a.intensityFactor s.intensity_factor,
    tss := mergeVal a.tss s.training_stress_score,
    trainingLoad := mergeVal a.trainingLoad s.training_load,
    aerobicTrainingEffect := mergeVal a.aerobicTrainingEffect s.total_training_effect,
    anaerobicTrainingEffect := mergeVal a.anaerobicTrainingEffect s.total_anaerobic_effect,
    pedalSmoothness := mergeVal a.pedalSmoothness
      (meanOpt [s.avg_combined_pedal_smoothness, s.avg_left_pedal_smoothness, s.avg_right_pedal_smoothness]),
    pedalTorqueEffect := mergeVal a.pedalTorqueEffect
      (meanOpt [s.avg_left_torque_effectiveness, s.avg_right_torque_effectiveness]),
    pedalBalance := mergeBal a.pedalBalance s.left_right_balance }

/-- The sessions loop of the extraction phase, in iteration order. -/
def extractSessionFields (ss : List Session) (a : FitFileActivity) : FitFileActivity :=
  ss.foldl extractFields a

/-- Distance and total time from the sessions (src lines 212 to 213):
distance is the session total_distance sum over 1000, rounded to one
decimal; totalTime is the rounded session total_elapsed_time sum. -/
def applyTotals (ss : List Session) (a : FitFileActivity) : FitFileActivity :=
  { a with
    distance := some ((jsSumBy (ss.map fun s => s.total_distance)).map fun d => toFixed1 (d / 1000)),
    totalTime := some ((jsSumBy (ss.map fun s => s.total_elapsed_time)).map jsRound) }

/-- Strip characters in the codepoint range 0080 to FFFF (the regex in
src line 253 with the u flag: astral characters are kept). -/
def stripHighBmp (s : String) : String :=
  ⟨s.data.filter fun c => c.toNat < 128 ∨ c.toNat > 65535⟩

/-- Sport profile from the sports bucket (src lines 251 to 255): the last
sport message with a truthy name wins. -/
def applySports (sps : List Sport) (a : FitFileActivity) : FitFileActivity :=
  sps.foldl (fun acc sp =>
    if truthyS sp.name then { acc with sportProfile := some (stripHighBmp (sp.name.getD "")) }
    else acc) a

/-- Rounding of trainingLoad, pedalSmoothness and pedalTorqueEffect
(src lines 258 to 263): only truthy values are rounded. -/
def roundTruthy (o : Option ℚ) : Option ℚ :=
  if truthyQ o then o.map fun q => ((jsRound q : ℤ) : ℚ) else o

/-- Apply roundTruthy to the three rounded summary fields. -/
def roundFields (a : FitFileActivity) : FitFileActivity :=
  { a with
    trainingLoad := roundTruthy a.trainingLoad,
    pedalSmoothness := roundTruthy a.pedalSmoothness,
    pedalTorqueEffect := roundTruthy a.pedalTorqueEffect }

/-- Workout name and notes (src lines 266 to 273): set only when truthy. -/
def applyWorkout (w : Option Workout) (a : FitFileActivity) : FitFileActivity :=
  match w with
  | none => a
  | some wk =>
    let a1 := if truthyS wk.wkt_name then { a with workoutName := wk.wkt_name } else a
    if truthyS wk.notes then { a1 with workoutNotes := wk.notes } else a1

/-- JS template interpolation of an optional string: undefined prints as the
text undefined. -/
def jsStr (o : Option String) : String := o.getD "undefined"

/-- JS template interpolation of an optional natural number. -/
def jsNat (o : Option Nat) : String :=
  match o with
  | some n => toString n
  | none => "undefined"

/-- Strip underscores and whitespace (the two replace calls in src line 277). -/
def stripUW (s : String) : String :=
  ⟨s.data.filter fun c => ¬ (c = '_' ∨ c.isWhitespace)⟩

/-- Middle component of the device identity: the JS or-chain
product_name, device_type, source_type, device_index; when all are falsy the
value of device_index itself is interpolated. -/
def deviceMiddle (d : DeviceInfo) : String :=
  if truthyS d.product_name then jsStr d.product_name
  else if truthyS d.device_type then jsStr d.device_type
  else if truthyS d.source_type then jsStr d.source_type
  else jsNat d.device_index

/-- Canonical device identity string (src line 277). -/
def getDeviceString (d : DeviceInfo) : String :=
  stripUW (jsStr d.manufacturer ++ "." ++ deviceMiddle d ++ "." ++ jsNat d.serial_number)

/-- Device validity filter (src line 278): manufacturer and serial number
must both be truthy. -/
def devFilter (d : DeviceInfo) : Bool :=
  truthyS d.manufacturer && truthyN d.serial_number

/-- lodash uniqBy on the device identity: keep the first device for each
identity string, threading the set of identities already seen. -/
def uniqByAux (key : DeviceInfo → String) (seen : List String) : List DeviceInfo → List DeviceInfo
  | [] => []
  | d :: rest =>
    if key d ∈ seen then uniqByAux key seen rest
    else d :: uniqByAux key (key d :: seen) rest

/-- lodash uniqBy on the device identity, starting from no seen identities. -/
def uniqByKey (key : DeviceInfo → String) (l : List DeviceInfo) : List DeviceInfo :=
  uniqByAux key [] l

/-- Device list and battery statuses (src lines 276 to 292). -/
def applyDevices (devs : List DeviceInfo) (a : FitFileActivity) : FitFileActivity :=
  if devs.isEmpty then a
  else
    let valid := uniqByKey getDeviceString (devs.filter devFilter)
    let a1 := { a with devices := some (valid.map getDeviceString) }
    let batt := valid.filter fun d => truthyS d.battery_status
    if batt.isEmpty then a1
    else { a1 with deviceBattery := some (batt.map fun d => (getDeviceString d, jsStr d.battery_status)) }

/-- The fixed primary-benefit decode table (src line 296). -/
def primaryBenefits : List String :=
  ["None", "Recovery", "Base", "Tempo", "Threshold", "VO2Max", "Anaerobic", "Sprint"]

/-- JS array indexing by a number: integers in range give the element, any
other index gives undefined. -/
def jsIndexNum (tbl : List String) (q : ℚ) : Option String :=
  if q.den = 1 ∧ 0 ≤ q.num then tbl[q.num.toNat]? else none

/-- JS array indexing by a string: a canonical numeral in range gives the
element, any other string gives undefined. -/
def jsIndexStr (tbl : List String) (s : String) : Option String :=
  match s.toNat? with
  | some n => if toString n = s then tbl[n]? else none
  | none => none

/-- Primary-benefit decode (src lines 295 to 298): only a truthy value is
replaced with the table entry at that index; indexing outside the table
assigns undefined. -/
def decodePrimaryBenefit (a : FitFileActivity) : FitFileActivity :=
  if truthyPB a.primaryBenefit then
    { a with primaryBenefit :=
        match a.primaryBenefit with
        | some (.num q) => (jsIndexNum primaryBenefits q).map PBVal.str
        | some (.str s) => (jsIndexStr primaryBenefits s).map PBVal.str
        | none => none }
  else a

/-- Formatted pedal balance string (src lines 303 to 305). -/
def fmtBalance (b : Balance) : String :=
  let right := jsRound (b.value / 100)
  let left := 100 - right
  "L " ++ toString left ++ "% / R " ++ toString right ++ "%"

/-- Pedal-balance decode (src lines 300 to 308): a raw right-based value at
most 10000 is formatted, anything else causes the field to be deleted. -/
def decodePedalBalance (a : FitFileActivity) : FitFileActivity :=
  match a.pedalBalance with
  | some (.raw b) =>
    if b.right ∧ b.value ≤ 10000 then { a with pedalBalance := some (.str (fmtBalance b)) }
    else { a with pedalBalance := none }
  | _ => { a with pedalBalance := none }

/-- The aggregation and finalization part of FitParser.parse
(src lines 210 to 308), applied to the decoded message stream, in source
order: session totals and extraction and sport profile (only with at least
one session), rounding, workout details, devices, primary-benefit decode,
pedal-balance decode. -/
def finalize (reg : Registry) (msgs : List Message) (a0 : FitFileActivity) : FitFileActivity :=
  let ss := sessionsOf msgs
  let a1 :=
    if ss.isEmpty then a0
    else applySports (sportsOf msgs) (extractSessionFields ss (applyTotals ss a0))
  let a2 := roundFields a1
  let a3 := applyWorkout (workoutOf msgs) a2
  let a4 := applyDevices (devicesOf reg msgs) a3
  decodePedalBalance (decodePrimaryBenefit a4)

/-- Declared header length: the first byte of the buffer. -/
def headerLen (blob : List Nat) : Nat := blob.getD 0 0

/-- The four file-type marker bytes at offsets 8 to 11, as a string
(src lines 57 to 60). -/
def fileTypeString (blob : List Nat) : String :=
  ⟨(List.range 4).map fun i => Char.ofNat (blob.getD (8 + i) 0)⟩

/-- FitParser.parse (src lines 35 to 316) over a byte buffer.  The record
stream decoder (readRecord in binary.ts) is not under src; modelled from the
spec as an opaque pure function from the buffer to the decoded message
stream, per the spec sections 4.2 and 5 (synchronous, purely computational).
Header CRC and file CRC mismatches are warnings only and do not affect the
result.  The summary is threaded explicitly: on a format error it is
returned exactly as supplied. -/
def parse (reg : Registry) (decode : List Nat → List Message) (blob : List Nat)
    (a : FitFileActivity) : Except String Unit × FitFileActivity :=
  if blob.length < 12 then (.error "File to small to be a FIT file", a)
  else if headerLen blob ≠ 14 ∧ headerLen blob ≠ 12 then (.error "Incorrect header size", a)
  else if fileTypeString blob ≠ ".FIT" then (.error "Missing .FIT in header", a)
  else (.ok (), finalize reg (decode blob) a)

/-- A stored FIT file activity as compared by the matcher: only id and
total time are inspected. -/
structure StoredActivity where
  id : Nat
  totalTime : ℚ
deriving DecidableEq

/-- FitParser.getMatchingActivity (src lines 386 to 400), after the database
query returned the candidate list: an empty list is not found (null); else
the first candidate whose total time is within 60 seconds of the target wins;
with no such candidate the code raises a TypeError on the warning log line
(result.totalTime with result undefined), the catch swallows it and the
function returns undefined.  Null and undefined are both modelled as none. -/
def getMatchingActivity (targetTotalTime : ℚ) (activities : List StoredActivity) :
    Option StoredActivity :=
  if activities.isEmpty then none
  else
    match activities.find? (fun a =>
      decide (targetTotalTime - 60 ≤ a.totalTime) && decide (a.totalTime ≤ targetTotalTime + 60)) with
    | some r => some r
    | none => none

/-- Value-level form of the sport-profile loop. -/
def sportProfileVal (sps : List Sport) (cur : Option String) : Option String :=
  sps.foldl (fun c sp =>
    if truthyS sp.name then some (stripHighBmp (sp.name.getD "")) else c) cur

/-- Value-level form of the workout-name update. -/
def wktNameVal (w : Option Workout) (cur : Option String) : Option String :=
  match w with
  | none => cur
  | some wk => if truthyS wk.wkt_name then wk.wkt_name else cur

/-- Value-level form of the workout-notes update. -/
def notesVal (w : Option Workout) (cur : Option String) : Option String :=
  match w with
  | none => cur
  | some wk => if truthyS wk.notes then wk.notes else cur

/-- Value-level form of the device-list update. -/
def devicesVal (devs : List DeviceInfo) (cur : Option (List String)) : Option (List String) :=
  if devs.isEmpty then cur
  else some ((uniqByKey getDeviceString (devs.filter devFilter)).map getDeviceString)

/-- Value-level form of the device-battery update. -/
def batteryVal (devs : List DeviceInfo) (cur : Option (List (String × String))) :
    Option (List (String × String)) :=
  if devs.isEmpty then cur
  else
    let batt := (uniqByKey getDeviceString (devs.filter devFilter)).filter
      fun d => truthyS d.battery_status
    if batt.isEmpty then cur
    else some (batt.map fun d => (getDeviceString d, jsStr d.battery_status))

/-- Value-level form of the primary-benefit decode. -/
def pbDecodeVal (o : Option PBVal) : Option PBVal :=
  if truthyPB o then
    match o with
    | some (.num q) => (jsIndexNum primaryBenefits q).map PBVal.str
    | some (.str s) => (jsIndexStr primaryBenefits s).map PBVal.str
    | none => none
  else o

/-- Value-level form of the pedal-balance decode. -/
def pbalDecodeVal (o : Option PedalBalanceVal) : Option PedalBalanceVal :=
  match o with
  | some (.raw b) =>
    if b.right ∧ b.value ≤ 10000 then some (.str (fmtBalance b)) else none
  | _ => none

/-- First raw balance object across the sessions, in iteration order. -/
def firstBalance (ss : List Session) : Option Balance :=
  firstSome (ss.map fun s => s.left_right_balance)

/-- A registry with no product names, for concrete instances. -/
def emptyRegistry : Registry := fun _ _ => none

/-- A decoder producing no messages, for concrete instances. -/
def emptyDecode : List Nat → List Message := fun _ => []

/-- A timer event message with the given subtype and timestamp (milliseconds). -/
def timerEvent (ty : String) (t : ℚ) : Message :=
  .event { event := some "timer", event_type := some ty, timestamp := some t }

/-- The timer sequence from the spec example:
start at t0, stop_all at t0 plus 100000 ms, start at t0 plus 160000 ms. -/
def exampleTimerMsgs (t0 : ℚ) : List Message :=
  [timerEvent "start" t0, timerEvent "stop_all" (t0 + 100000), timerEvent "start" (t0 + 160000)]

/-! Helper lemmas: value-level forms of the pipeline stages and merge folds. -/

theorem foldl_mergeVal_of_truthy (l : List (Option ℚ)) (init : Option ℚ)
    (h : truthyQ init = true) : l.foldl mergeVal init = init := by
  induction l with
  | nil => rfl
  | cons x t ih =>
    have hx : mergeVal init x = init := by simp [mergeVal, h]
    rw [List.foldl_cons, hx, ih]

theorem foldl_mergeVal_none (l : List (Option ℚ)) (h : ∀ x ∈ l, x ≠ some 0) :
    l.foldl mergeVal none = firstSome l := by
  induction l with
  | nil => rfl
  | cons x t ih =>
    rw [List.foldl_cons]
    cases x with
    | none =>
      have hx : mergeVal none none = none := rfl
      rw [hx, ih fun x hx => h x (List.mem_cons_of_mem _ hx)]
      simp [firstSome, List.filterMap_cons]
    | some v =>
      have hv : v ≠ 0 := by
        have := h (some v) (List.mem_cons_self _ _)
        simpa using this
      have hx : mergeVal none (some v) = some v := rfl
      rw [hx, foldl_mergeVal_of_truthy _ _ (by simp [truthyQ, hv])]
      simp [firstSome, List.filterMap_cons]

theorem foldl_mergePB_of_truthy (l : List (Option ℚ)) (init : Option PBVal)
    (h : truthyPB init = true) : l.foldl mergePB init = init := by
  induction l with
  | nil => rfl
  | cons x t ih =>
    have hx : mergePB init x = init := by simp [mergePB, h]
    rw [List.foldl_cons, hx, ih]

theorem foldl_mergePB_none (l : List (Option ℚ)) (h : ∀ x ∈ l, x ≠ some 0) :
    l.foldl mergePB none = (firstSome l).map PBVal.num := by
  induction l with
  | nil => rfl
  | cons x t ih =>
    rw [List.foldl_cons]
    cases x with
    | none =>
      have hx : mergePB none none = none := rfl
      rw [hx, ih fun x hx => h x (List.mem_cons_of_mem _ hx)]
      simp [firstSome, List.filterMap_cons]
    | some v =>
      have hv : v ≠ 0 := by
        have := h (some v) (List.mem_cons_self _ _)
        simpa using this
      have hx : mergePB none (some v) = some (.num v) := rfl
      rw [hx, foldl_mergePB_of_truthy _ _ (by simp [truthyPB, hv])]
      simp [firstSome, List.filterMap_cons]

theorem foldl_mergeBal_of_truthy (l : List (Option Balance)) (init : Option PedalBalanceVal)
    (h : truthyBal init = true) : l.foldl mergeBal init = init := by
  induction l with
  | nil => rfl
  | cons x t ih =>
    have hx : mergeBal init x = init := by simp [mergeBal, h]
    rw [List.foldl_cons, hx, ih]

theorem foldl_mergeBal_none (l : List (Option Balance)) :
    l.foldl mergeBal none = (firstSome l).map PedalBalanceVal.raw := by
  induction l with
  | nil => rfl
  | cons x t ih =>
    rw [List.foldl_cons]
    cases x with
    | none =>
      have hx : mergeBal none none = none := rfl
      rw [hx, ih]
      simp [firstSome, List.filterMap_cons]
    | some b =>
      have hx : mergeBal none (some b) = some (.raw b) := rfl
      rw [hx, foldl_mergeBal_of_truthy _ _ (by simp [truthyBal])]
      simp [firstSome, List.filterMap_cons]

theorem filterMapIdMap {α β : Type} (f : α → Option β) (l : List α) :
    (l.map f).filterMap id = l.filterMap f := by
  induction l with
  | nil => rfl
  | cons x t ih => cases h : f x <;> simp [List.filterMap_cons, h, ih]

theorem extractSessionFields_eq (ss : List Session) (a : FitFileActivity) :
    extractSessionFields ss a =
      { a with
        primaryBenefit := (ss.map fun s => s.primary_benefit).foldl mergePB a.primaryBenefit,
        intensityFactor := (ss.map fun s => s.intensity_factor).foldl mergeVal a.intensityFactor,
        tss := (ss.map fun s => s.training_stress_score).foldl mergeVal a.tss,
        trainingLoad := (ss.map fun s => s.training_load).foldl mergeVal a.trainingLoad,
        aerobicTrainingEffect :=
          (ss.map fun s => s.total_training_effect).foldl mergeVal a.aerobicTrainingEffect,
        anaerobicTrainingEffect :=
          (ss.map fun s => s.total_anaerobic_effect).foldl mergeVal a.anaerobicTrainingEffect,
        pedalSmoothness :=
          (ss.map fun s => meanOpt [s.avg_combined_pedal_smoothness, s.avg_left_pedal_smoothness,
            s.avg_right_pedal_smoothness]).foldl mergeVal a.pedalSmoothness,
        pedalTorqueEffect :=
          (ss.map fun s => meanOpt [s.avg_left_torque_effectiveness,
            s.avg_right_torque_effectiveness]).foldl mergeVal a.pedalTorqueEffect,
        pedalBalance := (ss.map fun s => s.left_right_balance).foldl mergeBal a.pedalBalance } := by
  induction ss generalizing a with
  | nil => rfl
  | cons s t ih =>
    show extractSessionFields t (extractFields a s) = _
    rw [ih]
    rfl

theorem applySports_eq (sps : List Sport) (a : FitFileActivity) :
    applySports sps a = { a with sportProfile := sportProfileVal sps a.sportProfile } := by
  induction sps generalizing a with
  | nil => rfl
  | cons sp t ih =>
    show applySports t
      (if truthyS sp.name then { a with sportProfile := some (stripHighBmp (sp.name.getD "")) }
       else a) = _
    by_cases h : truthyS sp.name = true
    · rw [if_pos h, ih]
      simp [sportProfileVal, List.foldl_cons, h]
    · rw [if_neg (by simpa using h), ih]
      simp [sportProfileVal, List.foldl_cons, h]

theorem applyWorkout_eq (w : Option Workout) (a : FitFileActivity) :
    applyWorkout w a =
      { a with workoutName := wktNameVal w a.workoutName,
               workoutNotes := notesVal w a.workoutNotes } := by
  cases w with
  | none => rfl
  | some wk =>
    simp only [applyWorkout, wktNameVal, notesVal]
    by_cases h1 : truthyS wk.wkt_name = true <;> by_cases h2 : truthyS wk.notes = true <;>
      simp [h1, h2]

theorem applyDevices_eq (devs : List DeviceInfo) (a : FitFileActivity) :
    applyDevices devs a =
      { a with devices := devicesVal devs a.devices,
               deviceBattery := batteryVal devs a.deviceBattery } := by
  simp only [applyDevices, devicesVal, batteryVal]
  split_ifs <;> rfl

theorem decodePrimaryBenefit_eq (a : FitFileActivity) :
    decodePrimaryBenefit a = { a with primaryBenefit := pbDecodeVal a.primaryBenefit } := by
  simp only [decodePrimaryBenefit, pbDecodeVal]
  split_ifs <;> rfl

theorem decodePedalBalance_eq (a : FitFileActivity) :
    decodePedalBalance a = { a with pedalBalance := pbalDecodeVal a.pedalBalance } := by
  unfold decodePedalBalance pbalDecodeVal
  cases hpb : a.pedalBalance with
  | none => rfl
  | some v =>
    cases v with
    | raw b => dsimp only; split_ifs <;> rfl
    | str s => rfl

theorem finalize_pausedTime (reg : Registry) (msgs : List Message) (a : FitFileActivity) :
    (finalize reg msgs a).pausedTime = a.pausedTime := by
  unfold finalize
  by_cases h : (sessionsOf msgs).isEmpty = true <;>
    simp [h, applyTotals, roundFields, applySports_eq, extractSessionFields_eq,
      applyWorkout_eq, applyDevices_eq, decodePrimaryBenefit_eq, decodePedalBalance_eq]

theorem finalize_distance (reg : Registry) (msgs : List Message) (a : FitFileActivity) :
    (finalize reg msgs a).distance =
      if (sessionsOf msgs).isEmpty then a.distance
      else some ((jsSumBy ((sessionsOf msgs).map fun s => s.total_distance)).map
        fun d => toFixed1 (d / 1000)) := by
  unfold finalize
  by_cases h : (sessionsOf msgs).isEmpty = true <;>
    simp [h, applyTotals, roundFields, applySports_eq, extractSessionFields_eq,
      applyWorkout_eq, applyDevices_eq, decodePrimaryBenefit_eq, decodePedalBalance_eq]

theorem finalize_totalTime (reg : Registry) (msgs : List Message) (a : FitFileActivity) :
    (finalize reg msgs a).totalTime =
      if (sessionsOf msgs).isEmpty then a.totalTime
      else some ((jsSumBy ((sessionsOf msgs).map fun s => s.total_elapsed_time)).map jsRound) := by
  unfold finalize
  by_cases h : (sessionsOf msgs).isEmpty = true <;>
    simp [h, applyTotals, roundFields, applySports_eq, extractSessionFields_eq,
      applyWorkout_eq, applyDevices_eq, decodePrimaryBenefit_eq, decodePedalBalance_eq]

theorem finalize_pedalBalance (reg : Registry) (msgs : List Message) (a : FitFileActivity) :
    (finalize reg msgs a).pedalBalance =
      pbalDecodeVal (if (sessionsOf msgs).isEmpty then a.pedalBalance
        else ((sessionsOf msgs).map fun s => s.left_right_balance).foldl mergeBal a.pedalBalance) := by
  unfold finalize
  by_cases h : (sessionsOf msgs).isEmpty = true <;>
    simp [h, applyTotals, roundFields, applySports_eq, extractSessionFields_eq,
      applyWorkout_eq, applyDevices_eq, decodePrimaryBenefit_eq, decodePedalBalance_eq]

theorem finalize_primaryBenefit (reg : Registry) (msgs : List Message) (a : FitFileActivity) :
    (finalize reg msgs a).primaryBenefit =
      pbDecodeVal (if (sessionsOf msgs).isEmpty then a.primaryBenefit
        else ((sessionsOf msgs).map fun s => s.primary_benefit).foldl mergePB a.primaryBenefit) := by
  unfold finalize
  by_cases h : (sessionsOf msgs).isEmpty = true <;>
    simp [h, applyTotals, roundFields, applySports_eq, extractSessionFields_eq,
      applyWorkout_eq, applyDevices_eq, decodePrimaryBenefit_eq, decodePedalBalance_eq]

theorem finalize_devices (reg : Registry) (msgs : List Message) (a : FitFileActivity) :
    (finalize reg msgs a).devices = devicesVal (devicesOf reg msgs) a.devices := by
  unfold finalize
  by_cases h : (sessionsOf msgs).isEmpty = true <;>
    simp [h, applyTotals, roundFields, applySports_eq, extractSessionFields_eq,
      applyWorkout_eq, applyDevices_eq, decodePrimaryBenefit_eq, decodePedalBalance_eq]

/-! Claim theorems. -/

/-- C1: for every buffer under 12 bytes, or whose declared header length
(first byte) is neither 12 nor 14, or whose bytes 8 to 11 are not the .FIT
marker, parse fails with an error and returns the caller-supplied summary
exactly as supplied. -/
theorem c1_header_format_errors (reg : Registry) (decode : List Nat → List Message)
    (blob : List Nat) (a : FitFileActivity)
    (h : blob.length < 12 ∨ (headerLen blob ≠ 12 ∧ headerLen blob ≠ 14) ∨
      fileTypeString blob ≠ ".FIT") :
    (∃ e, (parse reg decode blob a).1 = Except.error e) ∧ (parse reg decode blob a).2 = a := by
  unfold parse
  by_cases h1 : blob.length < 12
  · rw [if_pos h1]
    exact ⟨⟨_, rfl⟩, rfl⟩
  · rw [if_neg h1]
    by_cases h2 : headerLen blob ≠ 14 ∧ headerLen blob ≠ 12
    · rw [if_pos h2]
      exact ⟨⟨_, rfl⟩, rfl⟩
    · rw [if_neg h2]
      have h3 : fileTypeString blob ≠ ".FIT" := by
        rcases h with h | h | h
        · exact absurd h h1
        · exact absurd ⟨h.2, h.1⟩ h2
        · exact h
      rw [if_pos h3]
      exact ⟨⟨_, rfl⟩, rfl⟩

/-- C1 witness: the empty buffer is under 12 bytes and parse rejects it,
leaving the summary untouched. -/
theorem c1_witness :
    (∃ e, (parse emptyRegistry emptyDecode [] {}).1 = Except.error e) ∧
      (parse emptyRegistry emptyDecode [] {}).2 = ({} : FitFileActivity) :=
  c1_header_format_errors emptyRegistry emptyDecode [] {} (Or.inl (by decide))

/-- C9: parse is deterministic: on the same byte buffer, starting from
equally-initialized caller-supplied summaries, the outcomes and the resulting
summaries are identical.  The record stream decoder is modelled as a pure
function of the buffer (spec sections 4.2 and 5), so the whole parse is a
pure function of its inputs. -/
theorem c9_deterministic (reg : Registry) (decode : List Nat → List Message)
    (blob : List Nat) (a1 a2 : FitFileActivity) (h : a1 = a2) :
    parse reg decode blob a1 = parse reg decode blob a2 := by
  rw [h]

/-- C9 witness: two runs on a concrete buffer agree. -/
theorem c9_witness :
    parse emptyRegistry emptyDecode [0] {} = parse emptyRegistry emptyDecode [0] {} :=
  c9_deterministic emptyRegistry emptyDecode [0] {} {} rfl

theorem getMatching_eq_find (t : ℚ) (l : List StoredActivity) :
    getMatchingActivity t l =
      l.find? (fun a => decide (t - 60 ≤ a.totalTime) && decide (a.totalTime ≤ t + 60)) := by
  unfold getMatchingActivity
  by_cases h : l.isEmpty = true
  · rw [if_pos h]
    rw [List.isEmpty_iff.mp h]
    rfl
  · rw [if_neg h]
    cases l.find? (fun a => decide (t - 60 ≤ a.totalTime) && decide (a.totalTime ≤ t + 60)) <;> rfl

theorem find?_first_of_prefix {α : Type} (p : α → Bool) (l1 l2 : List α) (c : α)
    (hc : p c = true) (h1 : ∀ b ∈ l1, p b = false) :
    (l1 ++ c :: l2).find? p = some c := by
  induction l1 with
  | nil => simpa using List.find?_cons_of_pos l2 hc
  | cons b tl ih =>
    rw [List.cons_append, List.find?_cons_of_neg]
    · exact ih fun x hx => h1 x (List.mem_cons_of_mem _ hx)
    · simp [h1 b (List.mem_cons_self _ _)]

/-- C3: the matcher selects the first candidate whose total time lies within
60 seconds (inclusive) of the target total time; a selected candidate always
satisfies the tolerance (never a duration-mismatched one); and when no
candidate satisfies it, the matcher reports not found (none covers both the
null return for an empty candidate list and the undefined return produced
when the warning-log line raises and the catch swallows it). -/
theorem c3_matcher_tolerance (t : ℚ) (l : List StoredActivity) :
    (∀ c, getMatchingActivity t l = some c →
      c ∈ l ∧ t - 60 ≤ c.totalTime ∧ c.totalTime ≤ t + 60)
    ∧ (∀ l1 l2 c, l = l1 ++ c :: l2 →
        t - 60 ≤ c.totalTime → c.totalTime ≤ t + 60 →
        (∀ b ∈ l1, ¬ (t - 60 ≤ b.totalTime ∧ b.totalTime ≤ t + 60)) →
        getMatchingActivity t l = some c)
    ∧ ((∀ b ∈ l, ¬ (t - 60 ≤ b.totalTime ∧ b.totalTime ≤ t + 60)) →
        getMatchingActivity t l = none) := by
  refine ⟨?_, ?_, ?_⟩
  · intro c hc
    rw [getMatching_eq_find] at hc
    have hm := List.mem_of_find?_eq_some hc
    have hp := List.find?_some hc
    simp only [Bool.and_eq_true, decide_eq_true_eq] at hp
    exact ⟨hm, hp.1, hp.2⟩
  · intro l1 l2 c hl h1 h2 hnone
    subst hl
    rw [getMatching_eq_find]
    apply find?_first_of_prefix
    · simp [h1, h2]
    · intro b hb
      have := hnone b hb
      simpa using this
  · intro hall
    rw [getMatching_eq_find]
    rw [List.find?_eq_none]
    intro x hx
    have := hall x hx
    simpa using this

/-- C3 witness: with target duration 3600, the candidate with duration 3620
is selected first and the 5000-second candidate is ignored; with only the
5000-second candidate the matcher reports not found. -/
theorem c3_witness :
    getMatchingActivity 3600 [⟨1, 3620⟩, ⟨2, 5000⟩] = some ⟨1, 3620⟩
    ∧ getMatchingActivity 3600 [⟨2, 5000⟩] = none := by
  constructor
  · exact (c3_matcher_tolerance 3600 [⟨1, 3620⟩, ⟨2, 5000⟩]).2.1 [] [⟨2, 5000⟩] ⟨1, 3620⟩ rfl
      (by norm_num) (by norm_num) (by simp)
  · refine (c3_matcher_tolerance 3600 [⟨2, 5000⟩]).2.2 ?_
    intro b hb
    rw [List.mem_singleton] at hb
    subst hb
    intro hcontra
    exact absurd hcontra.2 (by norm_num : ¬ (5000 : ℚ) ≤ 3600 + 60)

theorem filterMap_ne_nil {α β : Type} (f : α → Option β) (l : List α) (hl : l ≠ [])
    (h : ∀ x ∈ l, f x ≠ none) : l.filterMap f ≠ [] := by
  cases l with
  | nil => exact absurd rfl hl
  | cons x t =>
    cases hx : f x with
    | none => exact absurd hx (h x (List.mem_cons_self _ _))
    | some v => simp [List.filterMap_cons, hx]

theorem jsSumBy_all_present (l : List (Option ℚ)) (h : l.filterMap id ≠ []) :
    jsSumBy l = some (l.filterMap id).sum := by
  simp only [jsSumBy]
  cases hk : (l.filterMap id).isEmpty with
  | true => exact absurd (List.isEmpty_iff.mp hk) h
  | false => simp

/-- C2 amended: with at least one decoded session (and sessions carrying the
two totals fields), the summary distance is the session total_distance sum in
meters over 1000, rounded to one decimal place, and the summary totalTime is
the session total_elapsed_time sum rounded to the nearest whole second; with
no decoded session, neither field is touched.  (A single session with
total_distance 10000 yields distance 10.0, not 1.0.) -/
theorem c2_amended_totals (reg : Registry) (msgs : List Message) (a : FitFileActivity) :
    (sessionsOf msgs ≠ [] →
      (∀ s ∈ sessionsOf msgs, s.total_distance ≠ none) →
      (∀ s ∈ sessionsOf msgs, s.total_elapsed_time ≠ none) →
      (finalize reg msgs a).distance =
        some (some (toFixed1 (((sessionsOf msgs).filterMap fun s => s.total_distance).sum / 1000)))
      ∧ (finalize reg msgs a).totalTime =
        some (some (jsRound ((sessionsOf msgs).filterMap fun s => s.total_elapsed_time).sum)))
    ∧ (sessionsOf msgs = [] →
      (finalize reg msgs a).distance = a.distance
      ∧ (finalize reg msgs a).totalTime = a.totalTime) := by
  constructor
  · intro hne hd ht
    have hnb : ¬ ((sessionsOf msgs).isEmpty = true) := by
      simpa [List.isEmpty_iff] using hne
    constructor
    · have hmapD : ((sessionsOf msgs).map fun s => s.total_distance).filterMap id
          = (sessionsOf msgs).filterMap fun s => s.total_distance := filterMapIdMap _ _
      have hneD : ((sessionsOf msgs).map fun s => s.total_distance).filterMap id ≠ [] := by
        rw [hmapD]
        exact filterMap_ne_nil _ _ hne hd
      have hsum := jsSumBy_all_present _ hneD
      rw [finalize_distance, if_neg hnb, hsum, hmapD]
      rfl
    · have hmapT : ((sessionsOf msgs).map fun s => s.total_elapsed_time).filterMap id
          = (sessionsOf msgs).filterMap fun s => s.total_elapsed_time := filterMapIdMap _ _
      have hneT : ((sessionsOf msgs).map fun s => s.total_elapsed_time).filterMap id ≠ [] := by
        rw [hmapT]
        exact filterMap_ne_nil _ _ hne ht
      have hsum := jsSumBy_all_present _ hneT
      rw [finalize_totalTime, if_neg hnb, hsum, hmapT]
      rfl
  · intro hz
    have hb : (sessionsOf msgs).isEmpty = true := by simp [List.isEmpty_iff, hz]
    constructor
    · rw [finalize_distance, if_pos hb]
    · rw [finalize_totalTime, if_pos hb]

/-- C2 counterexample: a single session with total_distance 10000 meters
yields summary distance 10.0 km (10000 over 1000), not 1.0 km as the claim
states. -/
theorem c2_counterexample :
    (finalize emptyRegistry
      [Message.session { total_distance := some 10000, total_elapsed_time := some 3600 }]
      {}).distance = some (some 10)
    ∧ (10 : ℚ) ≠ 1 := by
  constructor
  · rw [finalize_distance]
    norm_num [sessionsOf, List.filterMap_cons, jsSumBy, toFixed1, jsRound]
  · norm_num

/-- C2 witness: one session with total_distance 2500 m gives distance 2.5 km
and total_elapsed_time 100.4 s gives totalTime 100 s. -/
theorem c2_witness :
    (finalize emptyRegistry
      [Message.session { total_distance := some 2500, total_elapsed_time := some (502 / 5) }]
      {}).distance = some (some (5 / 2))
    ∧ (finalize emptyRegistry
      [Message.session { total_distance := some 2500, total_elapsed_time := some (502 / 5) }]
      {}).totalTime = some (some 100) := by
  have h := (c2_amended_totals emptyRegistry
    [Message.session { total_distance := some 2500, total_elapsed_time := some (502 / 5) }] {}).1
    (by simp [sessionsOf, List.filterMap_cons])
    (by
      intro s hs
      simp [sessionsOf, List.filterMap_cons] at hs
      subst hs
      simp)
    (by
      intro s hs
      simp [sessionsOf, List.filterMap_cons] at hs
      subst hs
      simp)
  obtain ⟨h1, h2⟩ := h
  constructor
  · rw [h1]
    norm_num [sessionsOf, List.filterMap_cons, toFixed1, jsRound]
  · rw [h2]
    norm_num [sessionsOf, List.filterMap_cons, jsRound]

/-- C4: starting from a summary without a pedalBalance value, the final
pedalBalance is determined by the first raw balance value across the decoded
sessions: when it indicates right-power based calculation and its value is at
most 10000, the field is the string L left percent slash R right percent with
right the rounded value over 100 and left its complement to 100; in every
other case (wrong flag, value above 10000, or no balance at all) the field is
absent from the summary. -/
theorem c4_pedal_balance (reg : Registry) (msgs : List Message) (a : FitFileActivity)
    (ha : a.pedalBalance = none) :
    (finalize reg msgs a).pedalBalance =
      match firstBalance (sessionsOf msgs) with
      | some b =>
        if b.right ∧ b.value ≤ 10000 then
          some (.str ("L " ++ toString (100 - jsRound (b.value / 100)) ++ "% / R " ++
            toString (jsRound (b.value / 100)) ++ "%"))
        else none
      | none => none := by
  rw [finalize_pedalBalance]
  by_cases h : (sessionsOf msgs).isEmpty = true
  · rw [if_pos h, ha]
    rw [List.isEmpty_iff.mp h]
    rfl
  · rw [if_neg h, ha, foldl_mergeBal_none]
    rw [show firstBalance (sessionsOf msgs)
      = firstSome ((sessionsOf msgs).map fun s => s.left_right_balance) from rfl]
    cases hfb : firstSome ((sessionsOf msgs).map fun s => s.left_right_balance) with
    | none => rfl
    | some b => simp [pbalDecodeVal, fmtBalance]

/-- C4 witness: raw balance 6000 with the right flag decodes to the string
L 40 percent slash R 60 percent; raw balance 10500 leaves the field absent. -/
theorem c4_witness :
    (finalize emptyRegistry
      [Message.session { left_right_balance := some ⟨true, 6000⟩ }] {}).pedalBalance
      = some (.str "L 40% / R 60%")
    ∧ (finalize emptyRegistry
      [Message.session { left_right_balance := some ⟨true, 10500⟩ }] {}).pedalBalance = none := by
  constructor
  · rw [c4_pedal_balance emptyRegistry _ {} rfl]
    have hfb : firstBalance (sessionsOf
        [Message.session { left_right_balance := some ⟨true, 6000⟩ }]) = some ⟨true, 6000⟩ := by
      simp [firstBalance, firstSome, sessionsOf, List.filterMap_cons]
    rw [hfb]
    dsimp only
    have h60 : jsRound ((6000 : ℚ) / 100) = 60 := by norm_num [jsRound]
    rw [if_pos (by exact ⟨rfl, by norm_num⟩ : (true = true) ∧ ((6000 : ℚ) ≤ 10000)), h60]
    decide
  · rw [c4_pedal_balance emptyRegistry _ {} rfl]
    have hfb : firstBalance (sessionsOf
        [Message.session { left_right_balance := some ⟨true, 10500⟩ }]) = some ⟨true, 10500⟩ := by
      simp [firstBalance, firstSome, sessionsOf, List.filterMap_cons]
    rw [hfb]
    dsimp only
    rw [if_neg]
    intro hcontra
    exact absurd hcontra.2 (by norm_num : ¬ (10500 : ℚ) ≤ 10000)

theorem uniqByAux_mem_key (key : DeviceInfo → String) (seen : List String)
    (l : List DeviceInfo) (s : String) :
    s ∈ (uniqByAux key seen l).map key ↔ s ∉ seen ∧ s ∈ l.map key := by
  induction l generalizing seen with
  | nil => simp [uniqByAux]
  | cons x t ih =>
    by_cases hk : key x ∈ seen
    · rw [show uniqByAux key seen (x :: t) = uniqByAux key seen t by simp [uniqByAux, hk]]
      rw [ih]
      constructor
      · rintro ⟨h1, h2⟩
        exact ⟨h1, by simp [h2]⟩
      · rintro ⟨h1, h2⟩
        rw [List.map_cons, List.mem_cons] at h2
        rcases h2 with h3 | h3
        · exact absurd (by rw [h3]; exact hk) h1
        · exact ⟨h1, h3⟩
    · rw [show uniqByAux key seen (x :: t) = x :: uniqByAux key (key x :: seen) t by
        simp [uniqByAux, hk]]
      simp only [List.map_cons, List.mem_cons, ih]
      constructor
      · rintro (h1 | ⟨h1, h2⟩)
        · exact ⟨by rw [h1]; exact hk, Or.inl h1⟩
        · exact ⟨fun hs => h1 (Or.inr hs), Or.inr h2⟩
      · rintro ⟨h1, h2 | h2⟩
        · exact Or.inl h2
        · by_cases hx : s = key x
          · exact Or.inl hx
          · exact Or.inr ⟨by simp [hx, h1], h2⟩

theorem uniqByAux_key_nodup (key : DeviceInfo → String) (seen : List String)
    (l : List DeviceInfo) :
    ((uniqByAux key seen l).map key).Nodup
    ∧ ∀ s ∈ (uniqByAux key seen l).map key, s ∉ seen := by
  induction l generalizing seen with
  | nil => simp [uniqByAux]
  | cons x t ih =>
    by_cases hk : key x ∈ seen
    · rw [show uniqByAux key seen (x :: t) = uniqByAux key seen t by simp [uniqByAux, hk]]
      exact ih seen
    · rw [show uniqByAux key seen (x :: t) = x :: uniqByAux key (key x :: seen) t by
        simp [uniqByAux, hk]]
      have iht := ih (key x :: seen)
      refine ⟨?_, ?_⟩
      · rw [List.map_cons, List.nodup_cons]
        refine ⟨fun hmem => ?_, iht.1⟩
        have := iht.2 _ hmem
        exact this (List.mem_cons_self _ _)
      · intro s hs
        rw [List.map_cons, List.mem_cons] at hs
        rcases hs with h1 | h1
        · rw [h1]
          exact hk
        · intro hcon
          exact iht.2 s h1 (List.mem_cons_of_mem _ hcon)

/-- C5 amended: starting from a summary without a devices list, whenever the
parse produces a device list, the list has no duplicate identity strings, and
a string is listed exactly when some collected device-info record with truthy
manufacturer and serial number has that canonical identity string; records
with equal identity strings (same manufacturer, same serial number and same
middle product-name or type or index component, regardless of their other
fields) collapse into one entry, while records sharing only manufacturer and
serial number but differing in the middle component stay separate entries. -/
theorem c5_amended_devices (reg : Registry) (msgs : List Message) (a : FitFileActivity)
    (ha : a.devices = none) :
    ∀ l, (finalize reg msgs a).devices = some l →
      l.Nodup
      ∧ ∀ s, s ∈ l ↔ ∃ d, d ∈ devicesOf reg msgs ∧ truthyS d.manufacturer = true
          ∧ truthyN d.serial_number = true ∧ getDeviceString d = s := by
  intro l hl
  rw [finalize_devices, ha] at hl
  unfold devicesVal at hl
  by_cases h : (devicesOf reg msgs).isEmpty = true
  · rw [if_pos h] at hl
    cases hl
  · rw [if_neg h] at hl
    injection hl with hl
    subst hl
    constructor
    · exact (uniqByAux_key_nodup getDeviceString [] _).1
    · intro s
      rw [show uniqByKey getDeviceString ((devicesOf reg msgs).filter devFilter)
        = uniqByAux getDeviceString [] ((devicesOf reg msgs).filter devFilter) from rfl]
      rw [uniqByAux_mem_key]
      simp only [List.mem_nil_iff, not_false_iff, true_and, List.mem_map, List.mem_filter]
      constructor
      · rintro ⟨d, ⟨hd, hf⟩, hs⟩
        have hf2 := hf
        rw [devFilter, Bool.and_eq_true] at hf2
        exact ⟨d, hd, hf2.1, hf2.2, hs⟩
      · rintro ⟨d, hd, hm, hn, hs⟩
        exact ⟨d, ⟨hd, by rw [devFilter, Bool.and_eq_true]; exact ⟨hm, hn⟩⟩, hs⟩

/-- C5 counterexample: two device-info records sharing manufacturer garmin
and serial number 123 but with different product names yield two distinct
entries in the device list, not one. -/
theorem c5_counterexample :
    (finalize emptyRegistry [Message.deviceInfo { manufacturer := some "garmin", product_name := some "edge530", serial_number := some 123 }, Message.deviceInfo { manufacturer := some "garmin", product_name := some "edge830", serial_number := some 123 }] {}).devices
      = some ["garmin.edge530.123", "garmin.edge830.123"]
    ∧ ("garmin.edge530.123" : String) ≠ "garmin.edge830.123" := by
  constructor
  · rw [finalize_devices]
    decide
  · decide

/-- C5 witness: a single valid device-info record produces its canonical
identity string with underscores and whitespace stripped, and the resulting
list has no duplicates. -/
theorem c5_witness :
    (finalize emptyRegistry [Message.deviceInfo { manufacturer := some "garmin", product_name := some "edge_530 plus", serial_number := some 99 }] {}).devices = some ["garmin.edge530plus.99"]
    ∧ (["garmin.edge530plus.99"] : List String).Nodup := by
  have hdev : (finalize emptyRegistry [Message.deviceInfo { manufacturer := some "garmin", product_name := some "edge_530 plus", serial_number := some 99 }] {}).devices = some ["garmin.edge530plus.99"] := by
    rw [finalize_devices]
    decide
  exact ⟨hdev, (c5_amended_devices emptyRegistry _ {} rfl _ hdev).1⟩

/-- C6 amended: over the session-extraction loop (src lines 216 to 248),
starting from a summary with the nine derived fields unset, each field is
assigned a session value only when the current value is falsy (absent or 0)
and the session value is non-null; hence, provided no session supplies a
value of 0 for the field (raw balance objects are always truthy, so pedal
balance needs no proviso), the summary holds the first non-null value
encountered across sessions in iteration order and it is never overwritten;
a stored 0, however, can be overwritten by a later session. -/
theorem c6_amended_first_values (ss : List Session) (a : FitFileActivity)
    (ha1 : a.primaryBenefit = none) (ha2 : a.intensityFactor = none) (ha3 : a.tss = none)
    (ha4 : a.trainingLoad = none) (ha5 : a.aerobicTrainingEffect = none)
    (ha6 : a.anaerobicTrainingEffect = none) (ha7 : a.pedalSmoothness = none)
    (ha8 : a.pedalTorqueEffect = none) (ha9 : a.pedalBalance = none)
    (h1 : ∀ s ∈ ss, s.primary_benefit ≠ some 0)
    (h2 : ∀ s ∈ ss, s.intensity_factor ≠ some 0)
    (h3 : ∀ s ∈ ss, s.training_stress_score ≠ some 0)
    (h4 : ∀ s ∈ ss, s.training_load ≠ some 0)
    (h5 : ∀ s ∈ ss, s.total_training_effect ≠ some 0)
    (h6 : ∀ s ∈ ss, s.total_anaerobic_effect ≠ some 0)
    (h7 : ∀ s ∈ ss, meanOpt [s.avg_combined_pedal_smoothness, s.avg_left_pedal_smoothness,
      s.avg_right_pedal_smoothness] ≠ some 0)
    (h8 : ∀ s ∈ ss, meanOpt [s.avg_left_torque_effectiveness,
      s.avg_right_torque_effectiveness] ≠ some 0) :
    (extractSessionFields ss a).primaryBenefit
      = (firstSome (ss.map fun s => s.primary_benefit)).map PBVal.num
    ∧ (extractSessionFields ss a).intensityFactor = firstSome (ss.map fun s => s.intensity_factor)
    ∧ (extractSessionFields ss a).tss = firstSome (ss.map fun s => s.training_stress_score)
    ∧ (extractSessionFields ss a).trainingLoad = firstSome (ss.map fun s => s.training_load)
    ∧ (extractSessionFields ss a).aerobicTrainingEffect
      = firstSome (ss.map fun s => s.total_training_effect)
    ∧ (extractSessionFields ss a).anaerobicTrainingEffect
      = firstSome (ss.map fun s => s.total_anaerobic_effect)
    ∧ (extractSessionFields ss a).pedalSmoothness
      = firstSome (ss.map fun s => meanOpt [s.avg_combined_pedal_smoothness,
          s.avg_left_pedal_smoothness, s.avg_right_pedal_smoothness])
    ∧ (extractSessionFields ss a).pedalTorqueEffect
      = firstSome (ss.map fun s => meanOpt [s.avg_left_torque_effectiveness,
          s.avg_right_torque_effectiveness])
    ∧ (extractSessionFields ss a).pedalBalance
      = (firstSome (ss.map fun s => s.left_right_balance)).map PedalBalanceVal.raw := by
  have hcol : ∀ (sel : Session → Option ℚ), (∀ s ∈ ss, sel s ≠ some 0) →
      ∀ x ∈ ss.map sel, x ≠ some 0 := by
    intro sel hsel x hx
    obtain ⟨s, hs, rfl⟩ := List.mem_map.mp hx
    exact hsel s hs
  rw [extractSessionFields_eq]
  refine ⟨?_, ?_, ?_, ?_, ?_, ?_, ?_, ?_, ?_⟩
  · dsimp only
    rw [ha1, foldl_mergePB_none _ (hcol _ h1)]
  · dsimp only
    rw [ha2, foldl_mergeVal_none _ (hcol _ h2)]
  · dsimp only
    rw [ha3, foldl_mergeVal_none _ (hcol _ h3)]
  · dsimp only
    rw [ha4, foldl_mergeVal_none _ (hcol _ h4)]
  · dsimp only
    rw [ha5, foldl_mergeVal_none _ (hcol _ h5)]
  · dsimp only
    rw [ha6, foldl_mergeVal_none _ (hcol _ h6)]
  · dsimp only
    rw [ha7, foldl_mergeVal_none _ (hcol _ h7)]
  · dsimp only
    rw [ha8, foldl_mergeVal_none _ (hcol _ h8)]
  · dsimp only
    rw [ha9, foldl_mergeBal_none]

/-- C6 counterexample: with a first session carrying intensity_factor 0 and a
second carrying 2, the summary ends with 2, not the first non-null value 0:
a stored 0 is overwritten by a later session. -/
theorem c6_counterexample :
    (finalize emptyRegistry [Message.session { intensity_factor := some 0 },
      Message.session { intensity_factor := some 2 }] {}).intensityFactor = some 2
    ∧ firstSome ((sessionsOf [Message.session { intensity_factor := some 0 },
        Message.session { intensity_factor := some 2 }]).map fun s => s.intensity_factor)
      = some 0
    ∧ (some (2 : ℚ)) ≠ some 0 := by
  refine ⟨by decide, by decide, by decide⟩

/-- C6 witness: with nonzero values, the first non-null value per field wins
and is not overwritten by later sessions. -/
theorem c6_witness :
    (extractSessionFields [{ primary_benefit := some 4, intensity_factor := some 2 },
      { intensity_factor := some 3, training_load := some 7 }] {}).intensityFactor = some 2
    ∧ (extractSessionFields [{ primary_benefit := some 4, intensity_factor := some 2 },
      { intensity_factor := some 3, training_load := some 7 }] {}).trainingLoad = some 7
    ∧ (extractSessionFields [{ primary_benefit := some 4, intensity_factor := some 2 },
      { intensity_factor := some 3, training_load := some 7 }] {}).primaryBenefit
      = some (.num 4) := by
  have h := c6_amended_first_values
    [{ primary_benefit := some 4, intensity_factor := some 2 },
     { intensity_factor := some 3, training_load := some 7 }] {}
    rfl rfl rfl rfl rfl rfl rfl rfl rfl
    (by decide) (by decide) (by decide) (by decide) (by decide) (by decide)
    (by decide) (by decide)
  refine ⟨?_, ?_, ?_⟩
  · rw [h.2.1]
    decide
  · rw [h.2.2.2.1]
    decide
  · rw [h.1]
    decide

/-- C7 amended: a truthy numeric primary-benefit code in 1 to 7 is decoded to
the corresponding table entry (Recovery, Base, Tempo, Threshold, VO2Max,
Anaerobic, Sprint); code 0 is falsy, so the decode branch is skipped and the
raw 0 stays in place (it is not decoded to None); any other code indexes
outside the table, so the field is assigned undefined: the raw value does not
pass through.  The decode step itself never fails. -/
theorem c7_amended_primary_benefit (a : FitFileActivity) (q : ℚ)
    (h : a.primaryBenefit = some (.num q)) :
    (decodePrimaryBenefit a).primaryBenefit =
      if q = 0 then some (.num 0)
      else if q = 1 then some (.str "Recovery")
      else if q = 2 then some (.str "Base")
      else if q = 3 then some (.str "Tempo")
      else if q = 4 then some (.str "Threshold")
      else if q = 5 then some (.str "VO2Max")
      else if q = 6 then some (.str "Anaerobic")
      else if q = 7 then some (.str "Sprint")
      else none := by
  rw [decodePrimaryBenefit_eq]
  dsimp only
  simp only [pbDecodeVal, h, truthyPB]
  by_cases h0 : q = 0
  · subst h0
    decide
  · rw [if_pos (by simp [h0]), if_neg h0]
    by_cases h1 : q = 1
    · subst h1
      decide
    rw [if_neg h1]
    by_cases h2 : q = 2
    · subst h2
      decide
    rw [if_neg h2]
    by_cases h3 : q = 3
    · subst h3
      decide
    rw [if_neg h3]
    by_cases h4 : q = 4
    · subst h4
      decide
    rw [if_neg h4]
    by_cases h5 : q = 5
    · subst h5
      decide
    rw [if_neg h5]
    by_cases h6 : q = 6
    · subst h6
      decide
    rw [if_neg h6]
    by_cases h7 : q = 7
    · subst h7
      decide
    rw [if_neg h7]
    by_cases hden : q.den = 1 ∧ 0 ≤ q.num
    · obtain ⟨hd, hn⟩ := hden
      have hq : (q.num.toNat : ℚ) = q := by
        have hnum := Rat.num_div_den q
        rw [hd] at hnum
        simp at hnum
        have hcast : ((q.num.toNat : ℤ) : ℚ) = q := by
          rw [Int.toNat_of_nonneg hn]
          exact hnum
        exact_mod_cast hcast
      have h8 : 8 ≤ q.num.toNat := by
        by_contra hlt
        push_neg at hlt
        have hcases : q.num.toNat = 0 ∨ q.num.toNat = 1 ∨ q.num.toNat = 2 ∨ q.num.toNat = 3
            ∨ q.num.toNat = 4 ∨ q.num.toNat = 5 ∨ q.num.toNat = 6 ∨ q.num.toNat = 7 := by
          omega
        rcases hcases with hc | hc | hc | hc | hc | hc | hc | hc <;>
          rw [hc] at hq <;> push_cast at hq <;> simp_all
      rw [jsIndexNum, if_pos ⟨hd, hn⟩]
      rw [List.getElem?_eq_none (by simpa [primaryBenefits] using h8)]
      rfl
    · rw [jsIndexNum, if_neg hden]
      rfl

/-- C7 counterexample: a session primary-benefit code 8 (outside the table)
does not pass through raw: the summary field ends up undefined; and code 0 is
not decoded to None: the raw 0 stays. -/
theorem c7_counterexample :
    (finalize emptyRegistry [Message.session { primary_benefit := some 8 }] {}).primaryBenefit
      = none
    ∧ (none : Option PBVal) ≠ some (.num 8)
    ∧ (finalize emptyRegistry [Message.session { primary_benefit := some 0 }] {}).primaryBenefit
      = some (.num 0)
    ∧ some (PBVal.num 0) ≠ some (.str "None") := by
  refine ⟨by decide, by decide, by decide, by decide⟩

/-- C7 witness: code 3 decodes to Tempo. -/
theorem c7_witness :
    (decodePrimaryBenefit { primaryBenefit := some (.num 3) }).primaryBenefit
      = some (.str "Tempo") := by
  have h := c7_amended_primary_benefit { primaryBenefit := some (.num 3) } 3 rfl
  rw [h]
  decide

/-- C8 amended: on the decoded stream, each timer start event with a recorded
previous stop_all timestamp adds start minus stop (in seconds) to the
paused-time accumulator, so the spec sequence (start at t0, stop_all at t0
plus 100000 ms, start at t0 plus 160000 ms) accumulates exactly 60 seconds;
the accumulator is threaded into per-record decoding but is never written to
the resulting summary, and it is never subtracted from the summary total
elapsed time, which is computed from the session sums alone. -/
theorem c8_amended_paused_time :
    (∀ t0 : ℚ, pausedTimeOf (exampleTimerMsgs t0) = some 60)
    ∧ (∀ (reg : Registry) (msgs : List Message) (a : FitFileActivity),
        (finalize reg msgs a).pausedTime = a.pausedTime)
    ∧ (∀ (reg : Registry) (msgs : List Message) (a : FitFileActivity),
        sessionsOf msgs ≠ [] →
        (finalize reg msgs a).totalTime
          = some ((jsSumBy ((sessionsOf msgs).map fun s => s.total_elapsed_time)).map jsRound)) := by
  refine ⟨?_, ?_, ?_⟩
  · intro t0
    simp only [pausedTimeOf, exampleTimerMsgs, timerEvent, List.foldl_cons, List.foldl_nil,
      timerStep, Option.some.injEq, String.reduceEq]
    norm_num
  · exact finalize_pausedTime
  · intro reg msgs a hne
    rw [finalize_totalTime, if_neg (by simpa [List.isEmpty_iff] using hne)]

/-- C8 counterexample: the spec sequence accumulates 60 seconds of paused
time, yet the resulting summary does not expose the accumulator: its
pausedTime slot stays unset after the parse. -/
theorem c8_counterexample :
    pausedTimeOf (exampleTimerMsgs 0) = some 60
    ∧ (finalize emptyRegistry (exampleTimerMsgs 0) {}).pausedTime = none := by
  constructor
  · simp only [pausedTimeOf, exampleTimerMsgs, timerEvent, List.foldl_cons, List.foldl_nil,
      timerStep, Option.some.injEq, String.reduceEq]
    norm_num
  · rw [finalize_pausedTime]

/-- C8 witness: the accumulator equals 60 on the spec sequence at t0 = 5, the
summary pausedTime is untouched by the parse, and totalTime comes from the
session sum. -/
theorem c8_witness :
    pausedTimeOf (exampleTimerMsgs 5) = some 60
    ∧ (finalize emptyRegistry [] {}).pausedTime = ({} : FitFileActivity).pausedTime
    ∧ (finalize emptyRegistry [Message.session { total_elapsed_time := some 100 }] {}).totalTime
      = some ((jsSumBy ((sessionsOf [Message.session { total_elapsed_time := some 100 }]).map
          fun s => s.total_elapsed_time)).map jsRound) :=
  ⟨c8_amended_paused_time.1 5, c8_amended_paused_time.2.1 emptyRegistry [] {},
    c8_amended_paused_time.2.2 emptyRegistry _ {} (by decide)⟩

/-- C10 amended: for every successful parse that decodes no session message
(device-info and workout messages may still be decoded), the pedal-balance
removal branch still runs: a caller-provided pedalBalance (absent or a
string, per the declared summary type) is deleted; the fields produced by
decoded device-info or workout messages take the decoded values, and every
other caller-provided field is left unchanged, except that trainingLoad,
pedalSmoothness and pedalTorqueEffect are rounded when truthy, and a truthy
primaryBenefit is re-indexed through the benefit table. -/
theorem c10_amended_frame (reg : Registry) (msgs : List Message) (a : FitFileActivity)
    (hs : sessionsOf msgs = [])
    (hpb : a.pedalBalance = none ∨ ∃ s, a.pedalBalance = some (.str s)) :
    (finalize reg msgs a).pedalBalance = none
    ∧ (finalize reg msgs a).distance = a.distance
    ∧ (finalize reg msgs a).totalTime = a.totalTime
    ∧ (finalize reg msgs a).primaryBenefit = pbDecodeVal a.primaryBenefit
    ∧ (finalize reg msgs a).intensityFactor = a.intensityFactor
    ∧ (finalize reg msgs a).tss = a.tss
    ∧ (finalize reg msgs a).trainingLoad = roundTruthy a.trainingLoad
    ∧ (finalize reg msgs a).aerobicTrainingEffect = a.aerobicTrainingEffect
    ∧ (finalize reg msgs a).anaerobicTrainingEffect = a.anaerobicTrainingEffect
    ∧ (finalize reg msgs a).pedalSmoothness = roundTruthy a.pedalSmoothness
    ∧ (finalize reg msgs a).pedalTorqueEffect = roundTruthy a.pedalTorqueEffect
    ∧ (finalize reg msgs a).sportProfile = a.sportProfile
    ∧ (finalize reg msgs a).workoutName = wktNameVal (workoutOf msgs) a.workoutName
    ∧ (finalize reg msgs a).workoutNotes = notesVal (workoutOf msgs) a.workoutNotes
    ∧ (finalize reg msgs a).devices = devicesVal (devicesOf reg msgs) a.devices
    ∧ (finalize reg msgs a).deviceBattery = batteryVal (devicesOf reg msgs) a.deviceBattery
    ∧ (finalize reg msgs a).pausedTime = a.pausedTime := by
  have hfin : finalize reg msgs a
      = decodePedalBalance (decodePrimaryBenefit (applyDevices (devicesOf reg msgs)
          (applyWorkout (workoutOf msgs) (roundFields a)))) := by
    unfold finalize
    simp [hs]
  rw [hfin, applyWorkout_eq, applyDevices_eq, decodePrimaryBenefit_eq, decodePedalBalance_eq]
  refine ⟨?_, rfl, rfl, rfl, rfl, rfl, rfl, rfl, rfl, rfl, rfl, rfl, rfl, rfl, rfl, rfl, rfl⟩
  rcases hpb with hpb | ⟨s, hpb⟩ <;> simp [pbalDecodeVal, roundFields, hpb]

/-- C10 counterexample: with no decoded messages at all, a caller-provided
fractional trainingLoad of 2.5 is changed to 3 by the rounding step while the
caller-provided pedalBalance string is deleted: not all other caller-provided
fields survive unchanged. -/
theorem c10_counterexample :
    (finalize emptyRegistry []
      { pedalBalance := some (.str "L 40% / R 60%"), trainingLoad := some (5 / 2) }).trainingLoad
      = some 3
    ∧ some ((3 : ℚ)) ≠ some ((5 : ℚ) / 2)
    ∧ (finalize emptyRegistry []
      { pedalBalance := some (.str "L 40% / R 60%"), trainingLoad := some (5 / 2) }).pedalBalance
      = none := by
  have hfin : finalize emptyRegistry []
      { pedalBalance := some (.str "L 40% / R 60%"), trainingLoad := some (5 / 2) }
      = decodePedalBalance (decodePrimaryBenefit (roundFields
        { pedalBalance := some (.str "L 40% / R 60%"), trainingLoad := some (5 / 2) })) := by
    unfold finalize
    simp [sessionsOf, devicesOf, workoutOf, applyWorkout, applyDevices]
  refine ⟨?_, ?_, ?_⟩
  · rw [hfin, decodePrimaryBenefit_eq, decodePedalBalance_eq]
    show roundTruthy (some (5 / 2)) = some 3
    rw [roundTruthy, if_pos (by norm_num [truthyQ] : truthyQ (some ((5 : ℚ) / 2)) = true)]
    norm_num [jsRound]
  · simp only [ne_eq, Option.some.injEq]
    norm_num
  · rw [hfin, decodePrimaryBenefit_eq, decodePedalBalance_eq]
    rfl

/-- C10 witness: a no-session parse that still decodes a workout message
deletes a caller-provided pedalBalance string, takes the decoded workout
name, and leaves a non-produced field like intensityFactor unchanged. -/
theorem c10_witness :
    (finalize emptyRegistry [Message.workout { wkt_name := some "w2" }]
      { pedalBalance := some (.str "x"), workoutName := some "w" }).pedalBalance = none
    ∧ (finalize emptyRegistry [Message.workout { wkt_name := some "w2" }]
      { pedalBalance := some (.str "x"), workoutName := some "w" }).workoutName = some "w2"
    ∧ (finalize emptyRegistry [Message.workout { wkt_name := some "w2" }]
      { pedalBalance := some (.str "x"), workoutName := some "w" }).intensityFactor = none := by
  have h := c10_amended_frame emptyRegistry [Message.workout { wkt_name := some "w2" }]
    { pedalBalance := some (.str "x"), workoutName := some "w" } rfl (Or.inr ⟨"x", rfl⟩)
  refine ⟨h.1, ?_, ?_⟩
  · rw [h.2.2.2.2.2.2.2.2.2.2.2.2.1]
    decide
  · rw [h.2.2.2.2.1]
